import Mathlib

/-!
Verification development for the rds-iam-connect command-line tool.

The Go source is shallowly embedded: pure helpers become Lean functions;
remote AWS responses (pagination pages, per-resource tag listings, policy
simulations, caller identity) are passed in explicitly as data; the on-disk
cache is an explicit file-map state; wall-clock times and Go durations are
integers counting nanoseconds, as in Go's `time` package.
-/

namespace RdsIamConnect

/-- `Cluster` from internal/rds (current revision): an RDS database cluster
with its connection details. Go's `int32` port is embedded as `Int`. -/
structure Cluster where
  identifier : String
  endpoint : String
  port : Int
  arn : String
  region : String
deriving DecidableEq, Repr

/-- One AWS resource tag (key/value pair), from the RDS SDK types. -/
structure Tag where
  key : String
  value : String
deriving DecidableEq, Repr

/-- `CacheData` from internal/rds: the persisted cache shape
`{timestamp, clusters}`. The timestamp is nanoseconds since the epoch
(Go `time.Time` instants compared via `Sub`/`After`). -/
structure CacheData where
  timestamp : Int
  clusters : List Cluster
deriving DecidableEq, Repr

/-- Cache configuration carried by `DatabaseService` (`cacheConfig` field). -/
structure CacheConfig where
  enabled : Bool
  duration : String
deriving DecidableEq, Repr

/-- The slice of `aws.Config` the service consults: the configured region. -/
structure AwsConfig where
  region : String
deriving DecidableEq, Repr

/-- `DatabaseService` from internal/rds, restricted to the data the embedded
functions read (the SDK client and logger are the external world). -/
structure DatabaseService where
  config : AwsConfig
  cacheConfig : CacheConfig
deriving DecidableEq, Repr

/-- An entry of the cache directory: either a regular file whose bytes
either parse as `CacheData` or fail to parse, or a non-regular entry. -/
inductive FsEntry
  | regular (parsed : Except String CacheData)
  | notRegular

/-- The cache-store state: whether the per-user cache directory is
resolvable (`utils.GetCacheDir` succeeding), and the directory's entries
keyed by file name (`none` means the file does not exist). -/
structure CacheFs where
  dirOk : Bool
  files : String → Option FsEntry

/-- The I/O actions GetClusters can take: reading the cache file,
fetching one pagination page, fetching the tags of one resource. -/
inductive CallEvent
  | cacheRead (fileName : String)
  | describePage
  | listTags (arn : String)
deriving DecidableEq, Repr

/-- `GetCacheFileName` from internal/rds cache code:
`fmt.Sprintf("rds-clusters-cache-%s.json", env)`. -/
def GetCacheFileName (env : String) : String :=
  "rds-clusters-cache-" ++ env ++ ".json"

/-! ### Go duration parsing

`loadFromCache` parses the configured duration with Go's
`time.ParseDuration`. We embed that standard-library parser: an optional
sign, then one or more number-with-optional-fraction-and-unit items, with
units ns/us/µs/μs/ms/s/m/h, the special case `"0"`, and an error on the
empty string or an unknown unit. The fractional part is computed with
exact integer division (Go uses float64 there; they agree on all
practical inputs), and int64 overflow is not modelled. -/

/-- Nanoseconds per unit, Go's `unitMap`. -/
def unitValue : String → Option Int
  | "ns" => some 1
  | "us" => some 1000
  | "µs" => some 1000
  | "μs" => some 1000
  | "ms" => some 1000000
  | "s" => some 1000000000
  | "m" => some 60000000000
  | "h" => some 3600000000000
  | _ => none

/-- Value of a digit run read as a decimal integer. -/
def digitsToInt (ds : List Char) : Int :=
  ds.foldl (fun a c => a * 10 + ((c.toNat : Int) - ('0'.toNat : Int))) 0

/-- One pass of `ParseDuration`'s item loop, driven by fuel (each item
consumes at least its unit character, so `cs.length` fuel suffices). -/
def parseDurItems : Nat → List Char → Option Int
  | _, [] => some 0
  | 0, _ :: _ => none
  | fuel + 1, cs =>
    let intPart := cs.takeWhile Char.isDigit
    let rest1 := cs.dropWhile Char.isDigit
    let hasDot := rest1.head? = some '.'
    let fracPart := if hasDot then (rest1.drop 1).takeWhile Char.isDigit else []
    let rest2 := if hasDot then (rest1.drop 1).dropWhile Char.isDigit else rest1
    if intPart.isEmpty && fracPart.isEmpty then none
    else
      let unitCs := rest2.takeWhile (fun c => !(c.isDigit || c = '.'))
      let rest3 := rest2.dropWhile (fun c => !(c.isDigit || c = '.'))
      if unitCs.isEmpty then none
      else
        match unitValue (String.mk unitCs) with
        | none => none
        | some u =>
          let v := digitsToInt intPart * u +
            (digitsToInt fracPart * u) / ((10 : Int) ^ fracPart.length)
          match parseDurItems fuel rest3 with
          | none => none
          | some w => some (v + w)

/-- Embedding of Go `time.ParseDuration`: result in nanoseconds, `none`
on a parse error. -/
def parseGoDuration (s : String) : Option Int :=
  let cs := s.data
  let signed : Bool × List Char :=
    match cs with
    | '-' :: r => (true, r)
    | '+' :: r => (false, r)
    | r => (false, r)
  let neg := signed.1
  let cs1 := signed.2
  if cs1 = ['0'] then some 0
  else if cs1.isEmpty then none
  else (parseDurItems cs1.length cs1).map (fun v => if neg then -v else v)

/-! ### Cache store -/

/-- `isCacheExpired` from the cache code: expired when
`now.Sub(cache.Timestamp) > duration || cache.Timestamp.After(now)`. -/
def isCacheExpired (cache : CacheData) (duration : Int) (now : Int) : Bool :=
  now - cache.timestamp > duration || cache.timestamp > now

/-- `loadFromCache` from the cache code. Returns the Go pair
`([]Cluster, bool)` together with the I/O events performed. The stat and
read of the cache file are one `cacheRead` event; the path-prefix check of
`parseCacheData` always passes because the path is built by joining the
cache directory with the file name, so it is not a separate state. -/
def loadFromCache (svc : DatabaseService) (fs : CacheFs) (now : Int)
    (env : String) : (List Cluster × Bool) × List CallEvent :=
  if !svc.cacheConfig.enabled then (([], false), [])
  else if !fs.dirOk then (([], false), [])
  else
    let events := [CallEvent.cacheRead (GetCacheFileName env)]
    match fs.files (GetCacheFileName env) with
    | none => (([], false), events)
    | some FsEntry.notRegular => (([], false), events)
    | some (FsEntry.regular parsed) =>
      match parsed with
      | Except.error _ => (([], false), events)
      | Except.ok cache =>
        match parseGoDuration svc.cacheConfig.duration with
        | none => (([], false), events)
        | some duration =>
          if isCacheExpired cache duration now then (([], false), events)
          else ((cache.clusters, true), events)

/-- `saveToCache` from the cache code: no-op when caching is disabled,
error when the cache directory is unavailable, otherwise overwrite the
scope's file with `{timestamp: now, clusters}`. Marshalling of this shape
cannot fail and the write is modelled as succeeding. -/
def saveToCache (svc : DatabaseService) (fs : CacheFs) (now : Int)
    (clusters : List Cluster) (env : String) : Except String CacheFs :=
  if !svc.cacheConfig.enabled then Except.ok fs
  else if !fs.dirOk then Except.error "failed to get cache directory"
  else
    Except.ok
      { fs with
        files := fun name =>
          if name = GetCacheFileName env then
            some (FsEntry.regular (Except.ok ⟨now, clusters⟩))
          else fs.files name }

/-! ### Inventory discoverer -/

/-- A DB cluster as returned by one `DescribeDBClusters` page, together
with the response `ListTagsForResource` would give for its ARN (that call
is issued only when the code reaches the tag-fetch step). Optional SDK
pointer fields are `Option`; the ARN is taken as present (the code
dereferences it unconditionally). -/
structure DBCluster where
  iamDatabaseAuthenticationEnabled : Option Bool
  dbClusterIdentifier : Option String
  endpoint : Option String
  port : Option Int
  dbClusterArn : String
  tagsResult : Except String (List Tag)

/-- Errors of `processDBCluster`: the sentinel `ErrClusterSkipped`, or a
failed `ListTagsForResource` call (wrapped as
`listing tags for resource: ...`). -/
inductive ProcessError
  | clusterSkipped
  | listTagsFailed (msg : String)
deriving DecidableEq, Repr

/-- `validateTags` from internal/rds: all four tag parameters must be
non-empty. -/
def validateTags (tagName tagValue envTagName envTagValue : String) :
    Except String Unit :=
  if tagName = "" || tagValue = "" || envTagName = "" || envTagValue = "" then
    Except.error "tag parameters cannot be empty"
  else Except.ok ()

/-- `hasRequiredTags` from internal/rds: the cluster must carry both the
classification tag pair and the environment tag pair. The Go loop computes
exactly these two existence flags. -/
def hasRequiredTags (tags : List Tag)
    (tagName tagValue envTagName envTagValue : String) : Bool :=
  (tags.any fun t => t.key = tagName && t.value = tagValue) &&
  (tags.any fun t => t.key = envTagName && t.value = envTagValue)

/-- Split a character list at every colon, the semantics of Go
`strings.Split(s, ":")` (an empty input yields one empty field). -/
def splitOnColon : List Char → List (List Char)
  | [] => [[]]
  | c :: cs =>
    let rest := splitOnColon cs
    if c = ':' then [] :: rest
    else
      match rest with
      | [] => [[c]]
      | r :: rs => (c :: r) :: rs

/-- `extractRegionFromARN` from internal/rds: the fourth colon-separated
component, or the empty string when there are fewer than four. -/
def extractRegionFromARN (arn : String) : String :=
  let arnParts := (splitOnColon arn.data).map String.mk
  if arnParts.length ≥ 4 then arnParts.getD 3 "" else ""

/-- `processDBCluster` from internal/rds, paired with the I/O events it
performs (the tag fetch happens only after the IAM-auth and
required-fields checks pass). -/
def processDBCluster (svc : DatabaseService) (dbCluster : DBCluster)
    (tagName tagValue envTagName envTagValue : String) :
    Except ProcessError Cluster × List CallEvent :=
  if dbCluster.iamDatabaseAuthenticationEnabled ≠ some true then
    (Except.error ProcessError.clusterSkipped, [])
  else if dbCluster.dbClusterIdentifier.isNone || dbCluster.endpoint.isNone
      || dbCluster.port.isNone then
    (Except.error ProcessError.clusterSkipped, [])
  else
    let events := [CallEvent.listTags dbCluster.dbClusterArn]
    match dbCluster.tagsResult with
    | Except.error e => (Except.error (ProcessError.listTagsFailed e), events)
    | Except.ok tagList =>
      if !hasRequiredTags tagList tagName tagValue envTagName envTagValue then
        (Except.error ProcessError.clusterSkipped, events)
      else
        let region := extractRegionFromARN dbCluster.dbClusterArn
        if region ≠ svc.config.region then
          (Except.error ProcessError.clusterSkipped, events)
        else
          (Except.ok
            { identifier := dbCluster.dbClusterIdentifier.getD ""
              endpoint := dbCluster.endpoint.getD ""
              port := dbCluster.port.getD 0
              arn := dbCluster.dbClusterArn
              region := region }, events)

/-- The inner per-page loop of `fetchClustersFromAWS`: skipped clusters
are dropped, a tag-fetch failure aborts, matches are appended in order. -/
def processPage (svc : DatabaseService)
    (tagName tagValue envTagName envTagValue : String) :
    List DBCluster → Except String (List Cluster) × List CallEvent
  | [] => (Except.ok [], [])
  | dbCluster :: rest =>
    let step := processDBCluster svc dbCluster tagName tagValue envTagName envTagValue
    match step.1 with
    | Except.error ProcessError.clusterSkipped =>
      let next := processPage svc tagName tagValue envTagName envTagValue rest
      (next.1, step.2 ++ next.2)
    | Except.error (ProcessError.listTagsFailed e) =>
      (Except.error ("listing tags for resource: " ++ e), step.2)
    | Except.ok cluster =>
      let next := processPage svc tagName tagValue envTagName envTagValue rest
      (next.1.map (cluster :: ·), step.2 ++ next.2)

/-- `fetchClustersFromAWS` from internal/rds: drain the paginator, abort
the whole pass on any page error or tag-fetch error (all-or-nothing),
otherwise concatenate the matches in pagination order. Each page is the
response of one `NextPage` call. -/
def fetchClustersFromAWS (svc : DatabaseService)
    (tagName tagValue envTagName envTagValue : String) :
    List (Except String (List DBCluster)) →
      Except String (List Cluster) × List CallEvent
  | [] => (Except.ok [], [])
  | page :: rest =>
    match page with
    | Except.error e =>
      (Except.error ("describing RDS clusters: " ++ e), [CallEvent.describePage])
    | Except.ok dbClusters =>
      let body := processPage svc tagName tagValue envTagName envTagValue dbClusters
      match body.1 with
      | Except.error e => (Except.error e, CallEvent.describePage :: body.2)
      | Except.ok clusters =>
        let next := fetchClustersFromAWS svc tagName tagValue envTagName envTagValue rest
        (next.1.map (clusters ++ ·), CallEvent.describePage :: body.2 ++ next.2)

/-- `GetClusters` from internal/rds (current revision): validate the tag
parameters first, then try the cache, then fetch live and save the result
back best-effort (a save failure is logged and ignored). Returns the Go
result, the cache state after the call, and the I/O events performed. -/
def GetClusters (svc : DatabaseService) (fs : CacheFs) (now : Int)
    (pages : List (Except String (List DBCluster)))
    (tagName tagValue envTagName envTagValue env : String) :
    Except String (List Cluster) × CacheFs × List CallEvent :=
  match validateTags tagName tagValue envTagName envTagValue with
  | Except.error e => (Except.error e, fs, [])
  | Except.ok _ =>
    let cached := loadFromCache svc fs now env
    if cached.1.2 then (Except.ok cached.1.1, fs, cached.2)
    else
      let fetched := fetchClustersFromAWS svc tagName tagValue envTagName envTagValue pages
      match fetched.1 with
      | Except.error e => (Except.error e, fs, cached.2 ++ fetched.2)
      | Except.ok clusters =>
        let fs1 :=
          match saveToCache svc fs now clusters env with
          | Except.ok f => f
          | Except.error _ => fs
        (Except.ok clusters, fs1, cached.2 ++ fetched.2)

/-! ### Identity and authorization checker (internal/aws) -/

/-- One entry of a policy-simulation response; only the decision string is
inspected by the code. -/
structure EvaluationResult where
  evalDecision : String
deriving DecidableEq, Repr

/-- Whether the pattern characters are an initial segment of the input. -/
def startsWithChars : List Char → List Char → Bool
  | [], _ => true
  | _ :: _, [] => false
  | p :: ps, c :: cs => p = c && startsWithChars ps cs

/-- The literal head of the assumed-role pattern, `arn:aws:sts::`. -/
def stsLit : List Char := "arn:aws:sts::".data

/-- The literal middle of the assumed-role pattern, `:assumed-role/`. -/
def assumedRoleLit : List Char := ":assumed-role/".data

/-- One attempt of the Go regexp `arn:aws:sts::(\d+):assumed-role/([^/]+)/.*`
at a fixed start position: the literal head, then a maximal non-empty digit
run (group 1), the literal middle, a maximal non-empty run without `/`
(group 2), and a `/` (after which `.*` always matches). Greedy runs need no
backtracking here because a digit can never begin `:assumed-role/` and a
non-`/` character can never be `/`. -/
def matchAssumedRoleAt (cs : List Char) : Option (List Char × List Char) :=
  if startsWithChars stsLit cs then
    let rest := cs.drop stsLit.length
    let acct := rest.takeWhile Char.isDigit
    let rest1 := rest.dropWhile Char.isDigit
    if acct.isEmpty then none
    else if startsWithChars assumedRoleLit rest1 then
      let rest2 := rest1.drop assumedRoleLit.length
      let role := rest2.takeWhile (fun c => c ≠ '/')
      let rest3 := rest2.dropWhile (fun c => c ≠ '/')
      if role.isEmpty then none
      else
        match rest3 with
        | '/' :: _ => some (acct, role)
        | _ => none
    else none
  else none

/-- `FindStringSubmatch` for that pattern: the match at the leftmost
position where one exists (the regexp is unanchored, so every start
position of the string is tried). -/
def findAssumedRole : List Char → Option (List Char × List Char)
  | [] => none
  | c :: cs =>
    match matchAssumedRoleAt (c :: cs) with
    | some r => some r
    | none => findAssumedRole cs

/-- The pure core of `GetCurrentIAMRole` from internal/aws, applied to the
ARN string of a successful `GetCallerIdentity` response: when the regexp
matches, recompose `arn:aws:iam::<account>:role/<roleName>` from the two
capture groups; otherwise return the ARN unchanged. -/
def GetCurrentIAMRole (identityArn : String) : String :=
  match findAssumedRole identityArn.data with
  | some (acct, role) =>
    "arn:aws:iam::" ++ String.mk acct ++ ":role/" ++ String.mk role
  | none => identityArn

/-- The resource ARN synthesized by `CheckIAMUserAccess`:
`fmt.Sprintf("arn:aws:rds-db:*:*:dbuser:%s/%s", resourceID, dbUserID)`. -/
def resourceUserArn (resourceID dbUserID : String) : String :=
  "arn:aws:rds-db:*:*:dbuser:" ++ resourceID ++ "/" ++ dbUserID

/-- `CheckIAMUserAccess` from internal/aws. The policy simulator is passed
explicitly as a function from (policy source ARN, resource ARN) to the
remote response. Success requires at least one evaluation result whose
last entry decides `allowed`. -/
def CheckIAMUserAccess
    (simulate : String → String → Except String (List EvaluationResult))
    (iamRole resourceID dbUserID : String) : Except String Unit :=
  match simulate iamRole (resourceUserArn resourceID dbUserID) with
  | Except.error e => Except.error ("failed to simulate IAM policy: " ++ e)
  | Except.ok results =>
    if results.length = 0 then Except.error "no evaluation results found"
    else if (results.getLastD ⟨""⟩).evalDecision ≠ "allowed" then
      Except.error ("IAM access denied: " ++ (results.getLastD ⟨""⟩).evalDecision)
    else Except.ok ()

/-- A cluster description as returned by the describe-by-identifier call;
only `DbClusterResourceId` is read. -/
structure DescribedCluster where
  dbClusterResourceId : String
deriving DecidableEq, Repr

/-- `GetRDSInstanceIdentifier` from internal/rds: on any error of the
describe call return the empty string, otherwise the resource id of the
first described cluster (the Go code indexes `DBClusters[0]`; on the
success path of this API the described cluster is present). -/
def GetRDSInstanceIdentifier
    (describeResult : Except String (List DescribedCluster)) : String :=
  match describeResult with
  | Except.error _ => ""
  | Except.ok dbClusters => (dbClusters.headD ⟨""⟩).dbClusterResourceId

/-- `checkIAMPermissions` from cmd/root.go: a no-op when the gate is
disabled; otherwise resolve the caller's role and run the access check on
the instance identifier obtained from `GetRDSInstanceIdentifier` (quote
characters of the Go error format strings are elided). -/
def checkIAMPermissions (checkIAMPermissionsEnabled : Bool)
    (simulate : String → String → Except String (List EvaluationResult))
    (iamRoleResult : Except String String)
    (describeResult : Except String (List DescribedCluster))
    (user : String) : Except String Unit :=
  if !checkIAMPermissionsEnabled then Except.ok ()
  else
    match iamRoleResult with
    | Except.error e => Except.error ("failed to get IAM role: " ++ e)
    | Except.ok iamRole =>
      match CheckIAMUserAccess simulate iamRole
          (GetRDSInstanceIdentifier describeResult) user with
      | Except.error e =>
        Except.error ("access denied: your IAM role " ++ iamRole ++
          " does not have permission to connect to RDS instance as user " ++
          user ++ ": " ++ e)
      | Except.ok _ => Except.ok ()

/-! ### Connection launcher (cmd/root.go) -/

/-- `isValidHostname` from cmd/root.go: at most 253 bytes, contains a
`.`, and contains none of the characters of `" \t\n\r"` (Go `len` counts
bytes; `strings.ContainsAny` checks exactly those four characters). -/
def isValidHostname (hostname : String) : Bool :=
  if hostname.utf8ByteSize > 253 then false
  else
    hostname.data.contains '.' &&
      !(hostname.data.any fun c => c = ' ' || c = '\t' || c = '\n' || c = '\r')

/-- `isValidUsername` from cmd/root.go: at most 32 bytes, none of the
characters of `" \t\n\r"`. -/
def isValidUsername (username : String) : Bool :=
  if username.utf8ByteSize > 32 then false
  else !(username.data.any fun c => c = ' ' || c = '\t' || c = '\n' || c = '\r')

/-- `isValidPort` from cmd/root.go. -/
def isValidPort (port : Int) : Bool :=
  port > 0 && port < 65536

/-- Outcome of `cmd.Run()` for the spawned mysql client when it does not
exit cleanly: a process that ran and exited non-zero (`exec.ExitError`
with its exit code, `-1` when signalled), or any other launch failure. A
clean exit (code 0) is `none`. -/
inductive RunError
  | exitError (code : Int)
  | launchError (msg : String)
deriving DecidableEq, Repr

/-- `connectToRDS` from cmd/root.go: pre-flight validation of endpoint,
username and port before any process is spawned; then the client run,
whose outcome is passed in explicitly. Exit code 1 is treated as a normal
termination. The second component records whether the process was
spawned. -/
def connectToRDS (cluster : Cluster) (user : String) (_token : String)
    (runOutcome : Option RunError) : Except String Unit × Bool :=
  if !isValidHostname cluster.endpoint then
    (Except.error ("invalid endpoint: " ++ cluster.endpoint), false)
  else if !isValidUsername user then
    (Except.error ("invalid username: " ++ user), false)
  else if !isValidPort cluster.port then
    (Except.error ("invalid port: " ++ toString cluster.port), false)
  else
    match runOutcome with
    | none => (Except.ok (), true)
    | some (RunError.exitError code) =>
      if code = 1 then (Except.ok (), true)
      else (Except.error ("failed to connect to RDS: exit status " ++ toString code), true)
    | some (RunError.launchError e) =>
      (Except.error ("failed to connect to RDS: " ++ e), true)

/-! ### Claim theorems -/

/-- C1: for every call to GetClusters in which any of the four tag fields
is the empty string, the call fails with the validation error and performs
zero I/O actions (no cache read, no pagination fetch, no tag fetch):
validation happens before any I/O. -/
theorem claim_c1_validation_before_io
    (svc : DatabaseService) (fs : CacheFs) (now : Int)
    (pages : List (Except String (List DBCluster)))
    (tagName tagValue envTagName envTagValue env : String)
    (h : tagName = "" ∨ tagValue = "" ∨ envTagName = "" ∨ envTagValue = "") :
    (GetClusters svc fs now pages tagName tagValue envTagName envTagValue env).1
        = Except.error "tag parameters cannot be empty" ∧
    (GetClusters svc fs now pages tagName tagValue envTagName envTagValue env).2.2
        = [] := by
  have hv : validateTags tagName tagValue envTagName envTagValue
      = Except.error "tag parameters cannot be empty" := by
    unfold validateTags
    rcases h with h | h | h | h <;> simp [h]
  unfold GetClusters
  rw [hv]
  exact ⟨rfl, rfl⟩

/-- Witness for C1 at a concrete input with an empty classification tag. -/
theorem claim_c1_validation_before_io_witness :
    (GetClusters ⟨⟨"us-east-1"⟩, ⟨true, "1h"⟩⟩ ⟨true, fun _ => none⟩ 0 []
        "" "v" "ReleaseState" "ga" "prod").1
      = Except.error "tag parameters cannot be empty" ∧
    (GetClusters ⟨⟨"us-east-1"⟩, ⟨true, "1h"⟩⟩ ⟨true, fun _ => none⟩ 0 []
        "" "v" "ReleaseState" "ga" "prod").2.2 = [] :=
  claim_c1_validation_before_io _ _ _ _ _ _ _ _ _ (Or.inl rfl)

/-- A sample discovered cluster used in the concrete cache scenarios. -/
def sampleCluster : Cluster :=
  ⟨"cluster-1", "db.example.internal", 3306,
    "arn:aws:rds:us-east-1:123456789012:cluster:cluster-1", "us-east-1"⟩

/-- A service configured with caching enabled and a one-hour duration. -/
def boundaryService : DatabaseService := ⟨⟨"us-east-1"⟩, ⟨true, "1h"⟩⟩

/-- A cache state holding one snapshot for scope `prod` captured at
instant 0. -/
def boundaryFs : CacheFs :=
  ⟨true, fun name =>
    if name = "rds-clusters-cache-prod.json" then
      some (FsEntry.regular (Except.ok ⟨0, [sampleCluster]⟩))
    else none⟩

/-- C2 counterexample: with duration `1h` (3600000000000 ns) and a
snapshot captured at instant 0, loading at instant 3600000000000 — the
exact boundary `now - capturedAt = duration` — returns a HIT, not the
miss the claim asserts: `isCacheExpired` expires only on the strict
inequality `now - capturedAt > duration`. -/
theorem claim_c2_boundary_counterexample :
    parseGoDuration "1h" = some 3600000000000 ∧
    (loadFromCache boundaryService boundaryFs 3600000000000 "prod").1
      = ([sampleCluster], true) := by
  exact ⟨rfl, rfl⟩

/-- C2 (amended): a snapshot whose `capturedAt` equals `now` minus the
configured duration is still VALID — the cache load returns a hit;
expiry uses strict inequality on `now - capturedAt > duration`, so the
boundary point is valid, not expired. -/
theorem claim_c2_boundary_snapshot_valid
    (svc : DatabaseService) (fs : CacheFs) (now : Int) (env : String)
    (cache : CacheData) (d : Int)
    (hen : svc.cacheConfig.enabled = true)
    (hdir : fs.dirOk = true)
    (hfile : fs.files (GetCacheFileName env)
      = some (FsEntry.regular (Except.ok cache)))
    (hdur : parseGoDuration svc.cacheConfig.duration = some d)
    (hboundary : now - cache.timestamp = d)
    (hnonneg : 0 ≤ d) :
    (loadFromCache svc fs now env).1 = (cache.clusters, true) := by
  have hexp : isCacheExpired cache d now = false := by
    unfold isCacheExpired
    simp only [Bool.or_eq_false_iff, decide_eq_false_iff_not, not_lt]
    omega
  simp [loadFromCache, hen, hdir, hfile, hdur, hexp]

/-- Witness for the amended C2 at the concrete boundary instant. -/
theorem claim_c2_boundary_snapshot_valid_witness :
    (loadFromCache boundaryService boundaryFs 3600000000000 "prod").1
      = ([sampleCluster], true) :=
  claim_c2_boundary_snapshot_valid boundaryService boundaryFs 3600000000000 "prod"
    ⟨0, [sampleCluster]⟩ 3600000000000 rfl rfl rfl rfl (by decide) (by decide)

/-- C3: for every successful policy-simulation response,
CheckIAMUserAccess succeeds iff the response has at least one evaluation
result and the last one decides `allowed`; zero results yield the
no-evaluation-results error (never an implicit allow or deny), and a last
decision other than `allowed` yields an access-denied error carrying the
decision string. -/
theorem claim_c3_last_decision
    (simulate : String → String → Except String (List EvaluationResult))
    (iamRole resourceID dbUserID : String)
    (results : List EvaluationResult)
    (hresp : simulate iamRole (resourceUserArn resourceID dbUserID)
      = Except.ok results) :
    (CheckIAMUserAccess simulate iamRole resourceID dbUserID = Except.ok () ↔
      results ≠ [] ∧
        results.getLast?.map EvaluationResult.evalDecision = some "allowed") ∧
    (results = [] →
      CheckIAMUserAccess simulate iamRole resourceID dbUserID
        = Except.error "no evaluation results found") ∧
    (∀ r : EvaluationResult, results.getLast? = some r →
      r.evalDecision ≠ "allowed" →
      CheckIAMUserAccess simulate iamRole resourceID dbUserID
        = Except.error ("IAM access denied: " ++ r.evalDecision)) := by
  unfold CheckIAMUserAccess
  rw [hresp]
  refine ⟨?_, ?_, ?_⟩
  · by_cases hnil : results = []
    · subst hnil; simp
    · obtain ⟨r, hr⟩ : ∃ r, results.getLast? = some r := by
        cases hl : results.getLast? with
        | some r => exact ⟨r, rfl⟩
        | none => exact absurd (by simpa using hl) hnil
      by_cases hall : r.evalDecision = "allowed" <;>
        simp [hnil, List.length_eq_zero, List.getLastD_eq_getLast?, hr, hall]
  · intro hnil
    subst hnil
    simp
  · intro r hr hall
    have hnil : results ≠ [] := by
      intro hcontra
      rw [hcontra] at hr
      simp at hr
    simp [hnil, List.length_eq_zero, List.getLastD_eq_getLast?, hr, hall]

/-- Witness for C3: a concrete response whose single result decides
`implicitDeny`. -/
theorem claim_c3_last_decision_witness :
    CheckIAMUserAccess (fun _ _ => Except.ok [⟨"implicitDeny"⟩]) "role" "rid" "bob"
      = Except.error ("IAM access denied: " ++ "implicitDeny") :=
  (claim_c3_last_decision (fun _ _ => Except.ok [⟨"implicitDeny"⟩])
    "role" "rid" "bob" [⟨"implicitDeny"⟩] rfl).2.2 ⟨"implicitDeny"⟩ rfl (by decide)

/-- C4: during a live discovery pass, a candidate cluster whose
ARN-derived region (fourth colon-separated component) differs from the
configured region is excluded (skipped), even with IAM authentication
enabled, all required fields present and both tag pairs matching. -/
theorem claim_c4_region_mismatch_skipped
    (svc : DatabaseService) (db : DBCluster) (tagList : List Tag)
    (ident ep : String) (pt : Int)
    (tagName tagValue envTagName envTagValue : String)
    (hiam : db.iamDatabaseAuthenticationEnabled = some true)
    (hid : db.dbClusterIdentifier = some ident)
    (hep : db.endpoint = some ep)
    (hpt : db.port = some pt)
    (htags : db.tagsResult = Except.ok tagList)
    (hmatch : hasRequiredTags tagList tagName tagValue envTagName envTagValue
      = true)
    (hregion : extractRegionFromARN db.dbClusterArn ≠ svc.config.region) :
    (processDBCluster svc db tagName tagValue envTagName envTagValue).1
      = Except.error ProcessError.clusterSkipped := by
  simp [processDBCluster, hiam, hid, hep, hpt, htags, hmatch, hregion]

/-- Witness for C4: a cluster in eu-west-1 with both tags matching while
the caller is configured for us-east-1. -/
theorem claim_c4_region_mismatch_skipped_witness :
    (processDBCluster ⟨⟨"us-east-1"⟩, ⟨false, "1h"⟩⟩
      ⟨some true, some "c2", some "ep.example.com", some 5432,
        "arn:aws:rds:eu-west-1:123456789012:cluster:c2",
        Except.ok [⟨"Team", "data"⟩, ⟨"ReleaseState", "ga"⟩]⟩
      "Team" "data" "ReleaseState" "ga").1
      = Except.error ProcessError.clusterSkipped :=
  claim_c4_region_mismatch_skipped ⟨⟨"us-east-1"⟩, ⟨false, "1h"⟩⟩ _
    [⟨"Team", "data"⟩, ⟨"ReleaseState", "ga"⟩] "c2" "ep.example.com" 5432
    "Team" "data" "ReleaseState" "ga" rfl rfl rfl rfl rfl (by decide) (by decide)

/-- C7: for every launch that passes pre-flight validation, a client exit
with code exactly 1 yields success, while any other exit code and any
launch failure yield an error wrapping the underlying failure. -/
theorem claim_c7_exit_code_one
    (cluster : Cluster) (user token : String)
    (hhost : isValidHostname cluster.endpoint = true)
    (huser : isValidUsername user = true)
    (hport : isValidPort cluster.port = true) :
    (connectToRDS cluster user token (some (RunError.exitError 1))).1
      = Except.ok () ∧
    (∀ code : Int, code ≠ 1 →
      (connectToRDS cluster user token (some (RunError.exitError code))).1
        = Except.error ("failed to connect to RDS: exit status " ++ toString code)) ∧
    (∀ e : String,
      (connectToRDS cluster user token (some (RunError.launchError e))).1
        = Except.error ("failed to connect to RDS: " ++ e)) := by
  refine ⟨by simp [connectToRDS, hhost, huser, hport],
    fun code hc => by simp [connectToRDS, hhost, huser, hport, hc],
    fun e => by simp [connectToRDS, hhost, huser, hport]⟩

/-- Witness for C7: concrete valid endpoint, user and port; exit code 1
succeeds, exit code 2 fails. -/
theorem claim_c7_exit_code_one_witness :
    (connectToRDS ⟨"c", "db.example.com", 3306, "arn", "us-east-1"⟩ "alice" "tok"
        (some (RunError.exitError 1))).1 = Except.ok () ∧
    (connectToRDS ⟨"c", "db.example.com", 3306, "arn", "us-east-1"⟩ "alice" "tok"
        (some (RunError.exitError 2))).1
      = Except.error ("failed to connect to RDS: exit status " ++ toString (2 : Int)) := by
  have h := claim_c7_exit_code_one ⟨"c", "db.example.com", 3306, "arn", "us-east-1"⟩
    "alice" "tok" (by decide) (by decide) (by decide)
  exact ⟨h.1, h.2.1 2 (by decide)⟩

/-- C8: hostname validation accepts exactly the strings of at most 253
bytes that contain a `.` separator and none of the whitespace characters
space, tab, newline, carriage return; `db..internal` passes, and an
endpoint `db host` makes connectToRDS fail validation with no process
spawned. -/
theorem claim_c8_hostname_validation :
    (∀ h : String, isValidHostname h = true ↔
      (h.utf8ByteSize ≤ 253 ∧ h.data.contains '.' = true ∧
        ∀ c ∈ h.data, c.isWhitespace = false)) ∧
    isValidHostname "db..internal" = true ∧
    (∀ (cluster : Cluster) (user token : String) (run : Option RunError),
      cluster.endpoint = "db host" →
      connectToRDS cluster user token run
        = (Except.error "invalid endpoint: db host", false)) := by
  have hws : ∀ c : Char,
      ((c = ' ' || c = '\t' || c = '\n' || c = '\r') : Bool) = c.isWhitespace := by
    intro c
    by_cases h1 : c = '\n' <;> by_cases h2 : c = '\r' <;>
      simp [Char.isWhitespace, h1, h2]
  refine ⟨?_, by decide, ?_⟩
  · intro h
    unfold isValidHostname
    by_cases hb : h.utf8ByteSize > 253
    · rw [if_pos hb]
      simp only [Bool.false_eq_true, false_iff, not_and]
      intro hle
      omega
    · rw [if_neg hb]
      push_neg at hb
      simp only [Bool.and_eq_true, Bool.not_eq_true', List.any_eq_false,
        Bool.not_eq_true]
      constructor
      · rintro ⟨hdot, hnows⟩
        refine ⟨hb, hdot, fun c hc => ?_⟩
        rw [← hws c]
        exact hnows c hc
      · rintro ⟨-, hdot, hnows⟩
        refine ⟨hdot, fun c hc => ?_⟩
        rw [hws c]
        exact hnows c hc
  · intro cluster user token run hend
    have hinvalid : isValidHostname "db host" = false := by decide
    simp [connectToRDS, hend, hinvalid]

/-- Witness for C8: the accepting side at `db..internal` and the
rejecting side at endpoint `db host` with no spawn. -/
theorem claim_c8_hostname_validation_witness :
    isValidHostname "db..internal" = true ∧
    (connectToRDS ⟨"c", "db host", 3306, "arn", "r"⟩ "u" "t" none).2 = false := by
  refine ⟨claim_c8_hostname_validation.2.1, ?_⟩
  rw [claim_c8_hostname_validation.2.2 ⟨"c", "db host", 3306, "arn", "r"⟩
    "u" "t" none rfl]

/-- C10: GetRDSInstanceIdentifier never surfaces an error — a failing
describe call yields the empty string — and the enabled IAM permission
check then proceeds, synthesizing a resource-user ARN with an empty
resource identifier (`...dbuser:/<user>`) instead of aborting. -/
theorem claim_c10_describe_failure_empty_identifier
    (e : String)
    (simulate : String → String → Except String (List EvaluationResult))
    (iamRole user : String) :
    GetRDSInstanceIdentifier (Except.error e) = "" ∧
    resourceUserArn (GetRDSInstanceIdentifier (Except.error e)) user
      = "arn:aws:rds-db:*:*:dbuser:/" ++ user ∧
    (checkIAMPermissions true simulate (Except.ok iamRole) (Except.error e) user
        = Except.ok () ↔
      CheckIAMUserAccess simulate iamRole "" user = Except.ok ()) := by
  refine ⟨rfl, rfl, ?_⟩
  have hg : GetRDSInstanceIdentifier (Except.error e) = ("" : String) := rfl
  unfold checkIAMPermissions
  rw [hg]
  cases hc : CheckIAMUserAccess simulate iamRole "" user <;> simp [hc]

/-- Witness for C10 at a concrete failing describe call. -/
theorem claim_c10_describe_failure_empty_identifier_witness :
    GetRDSInstanceIdentifier (Except.error "network timeout") = "" ∧
    resourceUserArn (GetRDSInstanceIdentifier (Except.error "network timeout"))
        "alice" = "arn:aws:rds-db:*:*:dbuser:/" ++ "alice" :=
  ⟨(claim_c10_describe_failure_empty_identifier "network timeout"
      (fun _ _ => Except.ok []) "role" "alice").1,
   (claim_c10_describe_failure_empty_identifier "network timeout"
      (fun _ _ => Except.ok []) "role" "alice").2.1⟩

/-- C5: round-trip — with caching enabled and a parseable positive
duration, saving a cluster list for a scope and then loading that scope
before the duration elapses (no intervening writes) is a cache hit whose
cluster sequence is element-for-element identical to the saved list. -/
theorem claim_c5_cache_round_trip
    (svc : DatabaseService) (fs fs1 : CacheFs) (saveTime loadTime : Int)
    (clusters : List Cluster) (env : String) (d : Int)
    (hen : svc.cacheConfig.enabled = true)
    (hdur : parseGoDuration svc.cacheConfig.duration = some d)
    (hpos : 0 < d)
    (hsave : saveToCache svc fs saveTime clusters env = Except.ok fs1)
    (hmono : saveTime ≤ loadTime)
    (helapsed : loadTime - saveTime < d) :
    (loadFromCache svc fs1 loadTime env).1 = (clusters, true) := by
  by_cases hdir : fs.dirOk = true
  · unfold saveToCache at hsave
    rw [hen] at hsave
    simp only [hdir, Bool.not_true, Bool.false_eq_true, if_false] at hsave
    have hfs1 : fs1 =
        { fs with
          files := fun name =>
            if name = GetCacheFileName env then
              some (FsEntry.regular (Except.ok ⟨saveTime, clusters⟩))
            else fs.files name } := by
      cases hsave
      rw [hdir]
    have hexp : isCacheExpired ⟨saveTime, clusters⟩ d loadTime = false := by
      unfold isCacheExpired
      simp only [Bool.or_eq_false_iff, decide_eq_false_iff_not, not_lt]
      omega
    simp [loadFromCache, hfs1, hen, hdir, hdur, hexp]
  · exfalso
    unfold saveToCache at hsave
    rw [hen] at hsave
    simp [hdir] at hsave

/-- Witness for C5: save at instant 5 and load at instant 6 with a
one-hour duration. -/
theorem claim_c5_cache_round_trip_witness :
    (loadFromCache boundaryService
      { boundaryFs with
        files := fun name =>
          if name = GetCacheFileName "staging" then
            some (FsEntry.regular (Except.ok ⟨5, [sampleCluster]⟩))
          else boundaryFs.files name } 6 "staging").1
      = ([sampleCluster], true) :=
  claim_c5_cache_round_trip boundaryService boundaryFs _ 5 6 [sampleCluster]
    "staging" 3600000000000 rfl rfl (by decide) rfl (by decide) (by decide)

/-- C9: the cache lookup is keyed only by the environment scope and a hit
is not re-validated against the tag filters — two GetClusters calls with
the same scope but different non-empty tag arguments (and even different
remote inventories) both return the identical cached list. -/
theorem claim_c9_cache_hit_ignores_tags
    (svc : DatabaseService) (fs : CacheFs) (now : Int)
    (pages1 pages2 : List (Except String (List DBCluster)))
    (t1 t2 t3 t4 u1 u2 u3 u4 env : String)
    (cachedClusters : List Cluster) (ev : List CallEvent)
    (h1 : t1 ≠ "") (h2 : t2 ≠ "") (h3 : t3 ≠ "") (h4 : t4 ≠ "")
    (g1 : u1 ≠ "") (g2 : u2 ≠ "") (g3 : u3 ≠ "") (g4 : u4 ≠ "")
    (hhit : loadFromCache svc fs now env = ((cachedClusters, true), ev)) :
    (GetClusters svc fs now pages1 t1 t2 t3 t4 env).1
        = Except.ok cachedClusters ∧
    (GetClusters svc fs now pages2 u1 u2 u3 u4 env).1
        = Except.ok cachedClusters := by
  have hv1 : validateTags t1 t2 t3 t4 = Except.ok () := by
    unfold validateTags
    simp [h1, h2, h3, h4]
  have hv2 : validateTags u1 u2 u3 u4 = Except.ok () := by
    unfold validateTags
    simp [g1, g2, g3, g4]
  constructor
  · unfold GetClusters
    rw [hv1]
    simp [hhit]
  · unfold GetClusters
    rw [hv2]
    simp [hhit]

/-- Witness for C9: one valid prod snapshot served for two different tag
filters, the second even with a failing remote inventory. -/
theorem claim_c9_cache_hit_ignores_tags_witness :
    (GetClusters boundaryService boundaryFs 0 []
        "Team" "data" "ReleaseState" "ga" "prod").1
      = Except.ok [sampleCluster] ∧
    (GetClusters boundaryService boundaryFs 0 [Except.error "down"]
        "Other" "x" "Env" "y" "prod").1
      = Except.ok [sampleCluster] :=
  claim_c9_cache_hit_ignores_tags boundaryService boundaryFs 0 []
    [Except.error "down"] "Team" "data" "ReleaseState" "ga"
    "Other" "x" "Env" "y" "prod" [sampleCluster]
    [CallEvent.cacheRead "rds-clusters-cache-prod.json"]
    (by decide) (by decide) (by decide) (by decide)
    (by decide) (by decide) (by decide) (by decide) rfl

/-! ### Assumed-role pattern: supporting lemmas -/

/-- A pattern is an initial segment of itself followed by anything. -/
theorem startsWithChars_append (p t : List Char) :
    startsWithChars p (p ++ t) = true := by
  induction p with
  | nil => rfl
  | cons c cs ih => simp [startsWithChars, ih]

/-- Soundness of the initial-segment test. -/
theorem startsWithChars_sound {p cs : List Char}
    (h : startsWithChars p cs = true) : ∃ t, cs = p ++ t := by
  induction p generalizing cs with
  | nil => exact ⟨cs, rfl⟩
  | cons x xs ih =>
    cases cs with
    | nil => simp [startsWithChars] at h
    | cons y ys =>
      simp only [startsWithChars, Bool.and_eq_true, decide_eq_true_eq] at h
      obtain ⟨hxy, h2⟩ := h
      obtain ⟨t, ht⟩ := ih h2
      subst hxy
      exact ⟨t, by rw [ht]; rfl⟩

/-- takeWhile/dropWhile split of a fully satisfying block followed by a
suffix whose head fails the predicate. -/
theorem takeWhile_append_block (p : Char → Bool) (xs ys : List Char)
    (hxs : ∀ c ∈ xs, p c = true)
    (hys : ∀ y, ys.head? = some y → p y = false) :
    (xs ++ ys).takeWhile p = xs ∧ (xs ++ ys).dropWhile p = ys := by
  induction xs with
  | nil =>
    rw [List.nil_append]
    cases ys with
    | nil => exact ⟨rfl, rfl⟩
    | cons y t =>
      have hy := hys y rfl
      exact ⟨by simp [List.takeWhile_cons, hy], by simp [List.dropWhile_cons, hy]⟩
  | cons x xs ih =>
    have hx := hxs x (by simp)
    have ih2 := ih (fun c hc => hxs c (by simp [hc]))
    exact ⟨by simp [List.takeWhile_cons, hx, ih2.1],
      by simp [List.dropWhile_cons, hx, ih2.2]⟩

/-- At a position where the string continues exactly with the assumed-role
pattern, the matcher extracts precisely the given account and role-name
groups. -/
theorem matchAssumedRoleAt_complete (acct roleName session : List Char)
    (hacct : acct ≠ []) (hdig : ∀ c ∈ acct, c.isDigit = true)
    (hrole : roleName ≠ []) (hslash : '/' ∉ roleName) :
    matchAssumedRoleAt
        (stsLit ++ (acct ++ (assumedRoleLit ++ (roleName ++ '/' :: session))))
      = some (acct, roleName) := by
  have hdigits := takeWhile_append_block Char.isDigit acct
    (assumedRoleLit ++ (roleName ++ '/' :: session)) hdig
    (fun y hy => by
      have : y = ':' := by
        have hh : (assumedRoleLit ++ (roleName ++ '/' :: session)).head?
            = some ':' := rfl
        rw [hh] at hy
        exact (Option.some.injEq _ _ ▸ hy).symm
      rw [this]
      decide)
  have hrolesplit := takeWhile_append_block (fun c => decide (c ≠ '/'))
    roleName ('/' :: session)
    (fun c hc => by
      have : c ≠ '/' := fun hcontra => hslash (hcontra ▸ hc)
      simp [this])
    (fun y hy => by
      have : y = '/' := by
        simp only [List.head?_cons, Option.some.injEq] at hy
        exact hy.symm
      rw [this]
      decide)
  unfold matchAssumedRoleAt
  rw [if_pos (startsWithChars_append _ _)]
  simp only [List.drop_left, hdigits.1, hdigits.2]
  rw [if_neg (by simp [List.isEmpty_iff, hacct])]
  rw [if_pos (startsWithChars_append _ _)]
  simp only [List.drop_left, hrolesplit.1, hrolesplit.2]
  rw [if_neg (by simp [List.isEmpty_iff, hrole])]

/-- A successful match at the head position is the overall find result. -/
theorem findAssumedRole_head {cs : List Char} {a r : List Char}
    (h : matchAssumedRoleAt cs = some (a, r)) :
    findAssumedRole cs = some (a, r) := by
  cases cs with
  | nil =>
    have hempty : matchAssumedRoleAt [] = none := rfl
    rw [hempty] at h
    exact absurd h (by simp)
  | cons c cs => simp [findAssumedRole, h]

/-- Soundness of the single-position matcher: a match decomposes the input
into the pattern's pieces. -/
theorem matchAssumedRoleAt_sound {cs a r : List Char}
    (h : matchAssumedRoleAt cs = some (a, r)) :
    ∃ tail, cs = stsLit ++ (a ++ (assumedRoleLit ++ (r ++ '/' :: tail))) ∧
      a ≠ [] ∧ (∀ c ∈ a, c.isDigit = true) ∧ r ≠ [] ∧ '/' ∉ r := by
  unfold matchAssumedRoleAt at h
  split at h
  case isFalse => exact absurd h (by simp)
  case isTrue h1 =>
    obtain ⟨t, ht⟩ := startsWithChars_sound h1
    subst ht
    rw [List.drop_left] at h
    simp only [] at h
    split at h
    case isTrue => exact absurd h (by simp)
    case isFalse hne =>
      split at h
      case isFalse => exact absurd h (by simp)
      case isTrue h2 =>
        obtain ⟨u, hu⟩ := startsWithChars_sound h2
        rw [hu, List.drop_left] at h
        split at h
        case isTrue => exact absurd h (by simp)
        case isFalse hne2 =>
          split at h
          case h_1 z heq =>
            simp only [Option.some.injEq, Prod.mk.injEq] at h
            obtain ⟨ha, hr⟩ := h
            refine ⟨z, ?_, ?_, ?_, ?_, ?_⟩
            · have hts : t = a ++ List.dropWhile Char.isDigit t := by
                rw [← ha]
                exact (List.takeWhile_append_dropWhile _ _).symm
              have hus : u = r ++ '/' :: z := by
                rw [← hr, ← heq]
                exact (List.takeWhile_append_dropWhile _ _).symm
              rw [hts, hu, hus]
            · rw [← ha]
              simpa [List.isEmpty_iff] using hne
            · intro c hc
              rw [← ha] at hc
              exact List.mem_takeWhile_imp hc
            · rw [← hr]
              simpa [List.isEmpty_iff] using hne2
            · intro hc
              rw [← hr] at hc
              have := List.mem_takeWhile_imp hc
              simp at this
          case h_2 => exact absurd h (by simp)

/-- Soundness of the whole-string search: a find result decomposes the
input at some position into the pattern's pieces. -/
theorem findAssumedRole_sound {cs a r : List Char}
    (h : findAssumedRole cs = some (a, r)) :
    ∃ pre tail,
      cs = pre ++ (stsLit ++ (a ++ (assumedRoleLit ++ (r ++ '/' :: tail)))) ∧
      a ≠ [] ∧ (∀ c ∈ a, c.isDigit = true) ∧ r ≠ [] ∧ '/' ∉ r := by
  induction cs with
  | nil => simp [findAssumedRole] at h
  | cons c cs ih =>
    unfold findAssumedRole at h
    cases hm : matchAssumedRoleAt (c :: cs) with
    | some p =>
      rw [hm] at h
      simp only [Option.some.injEq] at h
      subst h
      obtain ⟨tail, heq, h1, h2, h3, h4⟩ := matchAssumedRoleAt_sound hm
      exact ⟨[], tail, by simpa using heq, h1, h2, h3, h4⟩
    | none =>
      rw [hm] at h
      obtain ⟨pre, tail, heq, h1, h2, h3, h4⟩ := ih h
      exact ⟨c :: pre, tail, by simp [heq], h1, h2, h3, h4⟩

/-- Completeness of the search: a string that embeds the pattern anywhere
yields a match (used to refute containment on concrete strings). -/
theorem findAssumedRole_isSome_of_pattern (pre acct roleName tail : List Char)
    (hacct : acct ≠ []) (hdig : ∀ c ∈ acct, c.isDigit = true)
    (hrole : roleName ≠ []) (hslash : '/' ∉ roleName) :
    (findAssumedRole
        (pre ++ (stsLit ++ (acct ++ (assumedRoleLit ++ (roleName ++ '/' :: tail)))))).isSome
      = true := by
  induction pre with
  | nil =>
    rw [List.nil_append]
    rw [findAssumedRole_head
      (matchAssumedRoleAt_complete acct roleName tail hacct hdig hrole hslash)]
    rfl
  | cons c pre ih =>
    rw [List.cons_append]
    unfold findAssumedRole
    cases hm : matchAssumedRoleAt
        (c :: (pre ++ (stsLit ++ (acct ++ (assumedRoleLit ++ (roleName ++ '/' :: tail)))))) with
    | some p => rfl
    | none => exact ih

/-- The whole-string assumed-role shape exactly as the specification
words it: `arn:aws:sts::<account>:assumed-role/<roleName>/<session>`,
with a non-empty numeric account, a non-empty single-segment role name
and an arbitrary session remainder. -/
def specAssumedRoleShape (s : String) : Prop :=
  ∃ acct roleName session : List Char,
    s.data = stsLit ++ (acct ++ (assumedRoleLit ++ (roleName ++ '/' :: session))) ∧
    acct ≠ [] ∧ (∀ c ∈ acct, c.isDigit = true) ∧
    roleName ≠ [] ∧ '/' ∉ roleName

/-- The assumed-role pattern occurring as a substring at any position
(what the unanchored regexp actually tests). -/
def containsAssumedRolePattern (s : String) : Prop :=
  ∃ pre acct roleName tail : List Char,
    s.data
      = pre ++ (stsLit ++ (acct ++ (assumedRoleLit ++ (roleName ++ '/' :: tail)))) ∧
    acct ≠ [] ∧ (∀ c ∈ acct, c.isDigit = true) ∧
    roleName ≠ [] ∧ '/' ∉ roleName

/-- C6 counterexample: the regexp is unanchored, so an ARN string that
does NOT match the assumed-role shape (here: it carries a junk `x`
prefix) is still rewritten rather than returned unchanged. -/
theorem claim_c6_unanchored_counterexample :
    ¬ specAssumedRoleShape "xarn:aws:sts::123:assumed-role/admin/sess" ∧
    GetCurrentIAMRole "xarn:aws:sts::123:assumed-role/admin/sess"
      = "arn:aws:iam::123:role/admin" ∧
    GetCurrentIAMRole "xarn:aws:sts::123:assumed-role/admin/sess"
      ≠ "xarn:aws:sts::123:assumed-role/admin/sess" := by
  refine ⟨?_, by rfl, by decide⟩
  rintro ⟨acct, roleName, session, heq, -, -, -, -⟩
  have hx : ("xarn:aws:sts::123:assumed-role/admin/sess").data
      = 'x' :: ("arn:aws:sts::123:assumed-role/admin/sess").data := rfl
  have hsts : stsLit = 'a' :: ("rn:aws:sts::").data := rfl
  rw [hx, hsts] at heq
  rw [List.cons_append] at heq
  injection heq with h1 _
  exact absurd h1 (by decide)

/-- C6 (amended): a caller-identity ARN that matches the assumed-role
shape is rewritten to `arn:aws:iam::<account>:role/<roleName>`; an ARN
that does not contain the assumed-role pattern at ANY position is
returned unchanged (the regexp is unanchored, so a string merely
containing the pattern is also rewritten, from its leftmost occurrence). -/
theorem claim_c6_assumed_role_rewrite :
    (∀ (s : String) (acct roleName session : List Char),
      s.data = stsLit ++ (acct ++ (assumedRoleLit ++ (roleName ++ '/' :: session))) →
      acct ≠ [] → (∀ c ∈ acct, c.isDigit = true) →
      roleName ≠ [] → '/' ∉ roleName →
      GetCurrentIAMRole s
        = "arn:aws:iam::" ++ String.mk acct ++ ":role/" ++ String.mk roleName) ∧
    (∀ s : String, ¬ containsAssumedRolePattern s → GetCurrentIAMRole s = s) := by
  constructor
  · intro s acct roleName session hdata hacct hdig hrole hslash
    unfold GetCurrentIAMRole
    rw [hdata, findAssumedRole_head
      (matchAssumedRoleAt_complete acct roleName session hacct hdig hrole hslash)]
  · intro s hnc
    unfold GetCurrentIAMRole
    cases hf : findAssumedRole s.data with
    | none => rfl
    | some p =>
      exfalso
      apply hnc
      rcases p with ⟨a, r⟩
      obtain ⟨pre, tail, heq, h1, h2, h3, h4⟩ := findAssumedRole_sound hf
      exact ⟨pre, a, r, tail, heq, h1, h2, h3, h4⟩

/-- Witness for the amended C6: a genuine assumed-role ARN is rewritten;
a user ARN that contains the pattern nowhere passes through unchanged. -/
theorem claim_c6_assumed_role_rewrite_witness :
    GetCurrentIAMRole "arn:aws:sts::123456789012:assumed-role/MyRole/session-name"
      = "arn:aws:iam::123456789012:role/MyRole" ∧
    GetCurrentIAMRole "arn:aws:iam::123456789012:user/bob"
      = "arn:aws:iam::123456789012:user/bob" := by
  constructor
  · exact claim_c6_assumed_role_rewrite.1
      "arn:aws:sts::123456789012:assumed-role/MyRole/session-name"
      ("123456789012").data ("MyRole").data ("session-name").data
      (by decide) (by decide) (by decide) (by decide) (by decide)
  · refine claim_c6_assumed_role_rewrite.2 _ ?_
    rintro ⟨pre, acct, roleName, tail, heq, h1, h2, h3, h4⟩
    have hsome := findAssumedRole_isSome_of_pattern pre acct roleName tail h1 h2 h3 h4
    rw [← heq] at hsome
    have hnone : findAssumedRole ("arn:aws:iam::123456789012:user/bob").data
        = none := rfl
    rw [hnone] at hsome
    exact absurd hsome (by decide)

end RdsIamConnect
